import Mathlib

/-!
Verification of the instant-message core against its natural-language
specification.  The definitions below are shallow embeddings of the Rust
sources under `server/`:

* `server/seqnum/src/main.rs` — the sequence-number recovery (`load`) and,
  modelled from the spec, the fetch-and-increment operation `next`;
* `server/message/src/cluster/handler/pure_text.rs` — the cluster `Text` handler;
* `server/message/src/service/handler/business.rs` — `forward_only_user`
  and the business handlers;
* `server/common/src/net/client.rs` — `ClientConfigBuilder::build`,
  `Client::run`, `Client::rw_streams`, `ClientTimeout::rw_streams`;
* `server/scheduler/src/cluster/client.rs` — the scheduler ring dialer;
* `server/message/src/core/net.rs` — `Server::read_msg_from_stream`.

Machine integers are embedded as `Nat`; the sources involved never overflow
the embedded quantities (sequence counters are `u64` monotone counters, ids
are `u64`/`u32`, lengths are bounded by 2^17).
-/

set_option autoImplicit false

namespace InstantMessage

/-! ## Sequence-number service (`server/seqnum/src/main.rs`)

The durable state of one shard is a counter map plus the append-only
journal.  `applyRecord`/`loadRecords` embed the record-processing loop of
`load` in `main.rs` (lines 91–106): for each 24-byte record `(key, value)`
the in-memory entry is updated by `entry(key).and_modify(max with value+1)
.or_insert(value+1)`.  Keys are abstracted to `Nat` here; the byte-level
directory scan is embedded separately below for C2. -/

/-- The state of one seqnum shard: the in-memory counter map (`None` for a
key that has no entry, as in the `AHashMap`) and the append-only journal of
`(key, value)` records written so far. -/
structure SeqnumState where
  counters : Nat → Option Nat
  journal : List (Nat × Nat)

/-- The fresh state of a shard: empty map, empty append directory. -/
def initialSeqnumState : SeqnumState :=
  { counters := fun _ => none, journal := [] }

/-- One step of the record loop of `load` (main.rs lines 97–105): the entry
for the record's key becomes `max(current, value + 1)`, or `value + 1` when
absent.  Generic in the key type so that the byte-level embedding below can
reuse it. -/
def mergeVal (o : Option Nat) (v : Nat) : Option Nat :=
  match o with
  | some cur => some (if cur < v + 1 then v + 1 else cur)
  | none => some (v + 1)

/-- The map update performed by `load` for one record. -/
def applyRecord {κ : Type} [DecidableEq κ] (m : κ → Option Nat) (r : κ × Nat) :
    κ → Option Nat :=
  fun k => if k = r.1 then mergeVal (m r.1) r.2 else m k

/-- The whole record loop of `load`: fold `applyRecord` over the records
read from the append directory, starting from the empty map. -/
def loadRecords {κ : Type} [DecidableEq κ] (records : List (κ × Nat)) :
    κ → Option Nat :=
  records.foldl applyRecord (fun _ => none)

/-- Modelled from the spec: the `next` operation lives in
`seqnum/src/service`, which is not among the given sources (only
`get_seqnum_map` is referenced from `main.rs`).  Per §4.5 `next(key)` is an
atomic fetch-and-increment on the key's counter that journals the returned
value as a 24-byte record; scenario 5 (`next` returns 101 right after a
recovery from records 1..100) together with the `value + 1` recovery rule of
`load` (which is source code) fixes the convention: the stored counter is
the next value to hand out, `next` returns it and stores its successor, and
a key that is absent from the map starts at 1 (P5 with v₀ = 0). -/
def next (s : SeqnumState) (k : Nat) : Nat × SeqnumState :=
  let c := (s.counters k).getD 1
  (c,
    { counters := fun k' => if k' = k then some (c + 1) else s.counters k'
      journal := s.journal ++ [(k, c)] })

/-- Process restart: the in-memory map is rebuilt by `load` from the records
persisted in the append directory; the directory itself survives. -/
def restartShard (s : SeqnumState) : SeqnumState :=
  { counters := loadRecords s.journal, journal := s.journal }

/-- Run a sequence of `next` calls, returning the `(key, value)` pairs
handed out, in order, together with the final state. -/
def runSeq (s : SeqnumState) : List Nat → List (Nat × Nat) × SeqnumState
  | [] => ([], s)
  | k :: ks =>
    let step := next s k
    let rest := runSeq step.2 ks
    ((k, step.1) :: rest.1, rest.2)

/-- The journal after a run is the journal before it followed by exactly the
`(key, value)` pairs handed out by the run. -/
theorem runSeq_journal (ks : List Nat) (s : SeqnumState) :
    ((runSeq s ks).2).journal = s.journal ++ (runSeq s ks).1 := by
  induction ks generalizing s with
  | nil => simp [runSeq]
  | cons k ks ih => simp [runSeq, next, ih]

/-- A `next` call never decreases any counter (read with the default 1 used
for absent keys). -/
theorem counters_le_next (s : SeqnumState) (k k' : Nat) :
    (s.counters k').getD 1 ≤ (((next s k).2).counters k').getD 1 := by
  by_cases h : k' = k
  · subst h
    simp [next]
  · simp [next, h]

/-- Counters never decrease along a run. -/
theorem counters_le_runSeq (ks : List Nat) (s : SeqnumState) (k' : Nat) :
    (s.counters k').getD 1 ≤ (((runSeq s ks).2).counters k').getD 1 := by
  induction ks generalizing s with
  | nil => simp [runSeq]
  | cons k ks ih =>
    simpa [runSeq] using le_trans (counters_le_next s k k') (ih (next s k).2)

/-- Every value handed out for key `k` during a run is at least the counter
of `k` at the start of the run. -/
theorem runSeq_return_ge (ks : List Nat) (s : SeqnumState) (k v : Nat)
    (h : (k, v) ∈ (runSeq s ks).1) : (s.counters k).getD 1 ≤ v := by
  induction ks generalizing s with
  | nil => simp [runSeq] at h
  | cons k₀ ks ih =>
    simp only [runSeq, List.mem_cons] at h
    rcases h with h | h
    · obtain ⟨hk, hv⟩ := Prod.mk.injEq .. ▸ h
      subst hk
      simp [next] at hv
      exact le_of_eq hv.symm
    · exact le_trans (counters_le_next s k₀ k) (ih (next s k₀).2 h)

/-- Shard invariant: every journalled value is strictly below the current
counter of its key. -/
def JournalInv (s : SeqnumState) : Prop :=
  ∀ k v, (k, v) ∈ s.journal → v < (s.counters k).getD 1

theorem journalInv_initial : JournalInv initialSeqnumState := by
  intro k v h
  simp [initialSeqnumState] at h

theorem journalInv_next (s : SeqnumState) (k₀ : Nat) (h : JournalInv s) :
    JournalInv (next s k₀).2 := by
  intro k v hv
  simp only [next, List.mem_append, List.mem_singleton] at hv
  rcases hv with hv | hv
  · have hlt := h k v hv
    by_cases hk : k = k₀
    · subst hk
      simp [next]
      omega
    · simpa [next, hk] using hlt
  · obtain ⟨hk, hv⟩ := Prod.mk.injEq .. ▸ hv
    subst hk
    subst hv
    simp [next]

theorem journalInv_runSeq (ks : List Nat) (s : SeqnumState) (h : JournalInv s) :
    JournalInv (runSeq s ks).2 := by
  induction ks generalizing s with
  | nil => simpa [runSeq]
  | cons k ks ih => simpa [runSeq] using ih (next s k).2 (journalInv_next s k h)


/-- One `applyRecord` step keeps a `some` entry `some` and never decreases
it. -/
theorem applyRecord_some_le {κ : Type} [DecidableEq κ]
    (m : κ → Option Nat) (r : κ × Nat) (k : κ) (c₀ : Nat)
    (h : m k = some c₀) :
    ∃ c₁, applyRecord m r k = some c₁ ∧ c₀ ≤ c₁ := by
  by_cases hk : k = r.1
  · have h' : m r.1 = some c₀ := hk ▸ h
    refine ⟨if c₀ < r.2 + 1 then r.2 + 1 else c₀, ?_, by split <;> omega⟩
    simp [applyRecord, hk, mergeVal, h']
  · exact ⟨c₀, by simpa [applyRecord, hk] using h, le_refl c₀⟩

/-- Once a key's entry is `some c₀`, folding further records keeps it `some`
and never decreases it. -/
theorem foldl_applyRecord_some_le {κ : Type} [DecidableEq κ]
    (rs : List (κ × Nat)) (m : κ → Option Nat) (k : κ) (c₀ : Nat)
    (h : m k = some c₀) :
    ∃ c, (rs.foldl applyRecord m) k = some c ∧ c₀ ≤ c := by
  induction rs generalizing m c₀ with
  | nil => exact ⟨c₀, h, le_refl c₀⟩
  | cons r rs ih =>
    obtain ⟨c₁, h₁, hle₁⟩ := applyRecord_some_le m r k c₀ h
    obtain ⟨c, hc, hle⟩ := ih (applyRecord m r) c₁ h₁
    exact ⟨c, by simpa using hc, le_trans hle₁ hle⟩

/-- Applying a record makes its key's entry `some c₁` with the recorded
value strictly below `c₁`. -/
theorem applyRecord_self_lt {κ : Type} [DecidableEq κ]
    (m : κ → Option Nat) (k : κ) (v : Nat) :
    ∃ c₁, applyRecord m (k, v) k = some c₁ ∧ v < c₁ := by
  rcases hm : m k with _ | cur
  · exact ⟨v + 1, by simp [applyRecord, mergeVal, hm], by omega⟩
  · refine ⟨if cur < v + 1 then v + 1 else cur, by simp [applyRecord, mergeVal, hm], ?_⟩
    split <;> omega

/-- Every record in the fold's input forces the final entry of its key to be
`some c` with the recorded value strictly below `c`. -/
theorem foldl_applyRecord_mem_lt {κ : Type} [DecidableEq κ]
    (rs : List (κ × Nat)) (m : κ → Option Nat) (k : κ) (v : Nat)
    (h : (k, v) ∈ rs) :
    ∃ c, (rs.foldl applyRecord m) k = some c ∧ v < c := by
  induction rs generalizing m with
  | nil => simp at h
  | cons r rs ih =>
    rcases List.mem_cons.mp h with h | h
    · obtain ⟨c₁, h₁, hlt⟩ := applyRecord_self_lt m k v
      have h₁' : applyRecord m r k = some c₁ := by rw [← h]; exact h₁
      obtain ⟨c, hc, hle⟩ := foldl_applyRecord_some_le rs (applyRecord m r) k c₁ h₁'
      exact ⟨c, by simpa using hc, lt_of_lt_of_le hlt hle⟩
    · obtain ⟨c, hc, hle⟩ := ih (applyRecord m r) h
      exact ⟨c, by simpa using hc, hle⟩

/-- After recovery, the counter of any journalled key strictly exceeds every
value the journal holds for that key. -/
theorem restartShard_counters_gt (s : SeqnumState) (k v : Nat)
    (h : (k, v) ∈ s.journal) : v < (((restartShard s).counters k).getD 1) := by
  obtain ⟨c, hc, hc'⟩ := foldl_applyRecord_mem_lt s.journal (fun _ => none) k v h
  simpa [restartShard, loadRecords, hc] using hc'

set_option maxRecDepth 20000 in
/-- **C1**: values handed out after a restart strictly exceed every value
handed out before it, for the same key; in particular a key that produced
1..100 before the kill produces exactly 101 on the first call after the
journal is re-loaded. -/
theorem c1_seqnum_restart_monotonic :
    (∀ pre post k v₁ v₂,
        (k, v₁) ∈ (runSeq initialSeqnumState pre).1 →
        (k, v₂) ∈ (runSeq (restartShard (runSeq initialSeqnumState pre).2) post).1 →
        v₁ < v₂) ∧
    (runSeq initialSeqnumState (List.replicate 100 7)).1.map Prod.snd
        = (List.range 100).map (· + 1) ∧
    (next (restartShard (runSeq initialSeqnumState (List.replicate 100 7)).2) 7).1
        = 101 := by
  refine ⟨?_, by decide, by decide⟩
  intro pre post k v₁ v₂ h₁ h₂
  have hjournal : (k, v₁) ∈ ((runSeq initialSeqnumState pre).2).journal := by
    rw [runSeq_journal]
    simpa [initialSeqnumState] using h₁
  have hrestart := restartShard_counters_gt _ k v₁ hjournal
  have hpost := runSeq_return_ge post _ k v₂ h₂
  omega

/-- Concrete witness for C1: one call before the kill returns 1, the first
call after recovery returns 2 > 1. -/
theorem c1_seqnum_restart_monotonic_witness :
    (7, 1) ∈ (runSeq initialSeqnumState [7]).1 ∧
    (7, 2) ∈ (runSeq (restartShard (runSeq initialSeqnumState [7]).2) [7]).1 ∧
    (1 : Nat) < 2 :=
  ⟨by decide, by decide,
    c1_seqnum_restart_monotonic.1 [7] [7] 7 1 2 (by decide) (by decide)⟩

/-! ## Byte-level recovery scan (`load`, main.rs lines 78–115, claim C2)

`load` iterates the append directory, opens every file whose name starts
with `seqnum-`, reads consecutive 24-byte records with `read_exact` (a
short read at EOF breaks the loop, discarding the torn tail), parses each
with `from_bytes`, and folds the `max(current, value+1)` update. -/

/-- Big-endian interpretation of a byte list. -/
def beNat (bs : List Nat) : Nat :=
  bs.foldl (fun acc b => acc * 256 + b) 0

/-- Modelled from the spec: `util::from_bytes` of the seqnum crate is not
among the given sources; per §6 a record is exactly 24 bytes
`key[16] ‖ value_be_u64[8]`, so the parse splits the buffer at offset 16
and reads the value big-endian. -/
def from_bytes (bs : List Nat) : List Nat × Nat :=
  (bs.take 16, beNat ((bs.drop 16).take 8))

/-- The `read_exact` loop of `load` over one file's bytes: as long as 24
bytes remain, parse a record; a final chunk shorter than 24 bytes makes
`read_exact` fail, which breaks the loop. -/
def parseRecords (bs : List Nat) : List (List Nat × Nat) :=
  if h : bs.length < 24 then []
  else from_bytes (bs.take 24) :: parseRecords (bs.drop 24)
termination_by bs.length
decreasing_by simp [List.length_drop]; omega

/-- A file of the append directory: its name and its bytes. -/
structure SeqFile where
  name : String
  data : List Nat

/-- The whole of `load`: scan the directory, process every `seqnum-*` file's
records in order, and return the resulting in-memory map. -/
def load (files : List SeqFile) : List Nat → Option Nat :=
  files.foldl
    (fun m f =>
      if f.name.startsWith "seqnum-" then (parseRecords f.data).foldl applyRecord m
      else m)
    (fun _ => none)

/-- All records of all `seqnum-*` files, in scan order (spec-side view). -/
def seqnumRecords (files : List SeqFile) : List (List Nat × Nat) :=
  ((files.filter (fun f => f.name.startsWith "seqnum-")).map
    (fun f => parseRecords f.data)).join

/-- The values recorded for one key across the whole directory. -/
def recordValuesFor (files : List SeqFile) (k : List Nat) : List Nat :=
  ((seqnumRecords files).filter (fun r => decide (r.1 = k))).map Prod.snd

theorem load_eq_foldl_records (files : List SeqFile) :
    ∀ m : List Nat → Option Nat,
      files.foldl
        (fun m f =>
          if f.name.startsWith "seqnum-" then (parseRecords f.data).foldl applyRecord m
          else m)
        m
      = (seqnumRecords files).foldl applyRecord m := by
  induction files with
  | nil => intro m; simp [seqnumRecords]
  | cons f files ih =>
    intro m
    by_cases hf : f.name.startsWith "seqnum-"
    · simp only [List.foldl_cons, hf, if_pos, seqnumRecords, List.filter_cons,
        List.map_cons, List.join, List.foldl_append]
      simpa [seqnumRecords] using ih ((parseRecords f.data).foldl applyRecord m)
    · simp only [List.foldl_cons, hf, if_neg, seqnumRecords, List.filter_cons]
      simpa [seqnumRecords, hf] using ih m

/-- Folding `applyRecord` and then reading key `k` is the same as folding
`mergeVal` over just the values recorded for `k`. -/
theorem foldl_applyRecord_filter {κ : Type} [DecidableEq κ]
    (rs : List (κ × Nat)) (k : κ) :
    ∀ m : κ → Option Nat,
      (rs.foldl applyRecord m) k
        = (((rs.filter (fun r => decide (r.1 = k))).map Prod.snd).foldl mergeVal (m k)) := by
  induction rs with
  | nil => intro m; rfl
  | cons r rs ih =>
    intro m
    by_cases hk : r.1 = k
    · have hm : applyRecord m r k = mergeVal (m k) r.2 := by
        simp [applyRecord, hk]
      have hf : List.filter (fun r => decide (r.1 = k)) (r :: rs)
          = r :: List.filter (fun r => decide (r.1 = k)) rs := by
        simp [List.filter_cons, hk]
      rw [List.foldl_cons, ih (applyRecord m r), hm, hf, List.map_cons, List.foldl_cons]
    · have hm : applyRecord m r k = m k := by
        simp only [applyRecord]
        rw [if_neg (fun h => hk h.symm)]
      have hf : List.filter (fun r => decide (r.1 = k)) (r :: rs)
          = List.filter (fun r => decide (r.1 = k)) rs := by
        simp [List.filter_cons, hk]
      rw [List.foldl_cons, ih (applyRecord m r), hm, hf]

/-- Folding `mergeVal` from a `some` start computes a running maximum. -/
theorem foldl_mergeVal_some (vs : List Nat) :
    ∀ c : Nat, vs.foldl mergeVal (some c)
      = some (vs.foldl (fun a v => Nat.max a (v + 1)) c) := by
  induction vs with
  | nil => intro c; rfl
  | cons v vs ih =>
    intro c
    have hstep : mergeVal (some c) v = some (Nat.max c (v + 1)) := by
      have hmax : (if c < v + 1 then v + 1 else c) = Nat.max c (v + 1) := by
        simp only [Nat.max, max_def]
        split <;> split <;> omega
      simp [mergeVal, hmax]
    simp only [List.foldl_cons, hstep, ih]

/-- `read_exact` fails on a trailing chunk shorter than a record, so bytes
beyond the last whole record are ignored. -/
theorem parseRecords_append_torn (bs junk : List Nat)
    (hb : bs.length % 24 = 0) (hj : junk.length < 24) :
    parseRecords (bs ++ junk) = parseRecords bs := by
  by_cases h : bs.length < 24
  · have hbs : bs.length = 0 := by omega
    have hnil : bs = [] := List.length_eq_zero.mp hbs
    subst hnil
    have h1 : parseRecords junk = [] := by
      rw [parseRecords]
      exact dif_pos hj
    have h2 : parseRecords ([] : List Nat) = [] := by
      rw [parseRecords]
      exact dif_pos (by simp)
    rw [List.nil_append, h1, h2]
  · have hlen : ¬ (bs ++ junk).length < 24 := by
      simp only [List.length_append]
      omega
    have hL : parseRecords (bs ++ junk)
        = from_bytes ((bs ++ junk).take 24) :: parseRecords ((bs ++ junk).drop 24) := by
      rw [parseRecords]
      exact dif_neg hlen
    have hR : parseRecords bs
        = from_bytes (bs.take 24) :: parseRecords (bs.drop 24) := by
      rw [parseRecords]
      exact dif_neg h
    have htake : (bs ++ junk).take 24 = bs.take 24 := by
      rw [List.take_append_eq_append_take]
      have h24 : 24 - bs.length = 0 := by omega
      simp [h24]
    have hdrop : (bs ++ junk).drop 24 = bs.drop 24 ++ junk := by
      rw [List.drop_append_eq_append_drop]
      have h24 : 24 - bs.length = 0 := by omega
      simp [h24]
    rw [hL, hR, htake, hdrop,
      parseRecords_append_torn (bs.drop 24) junk
        (by simp only [List.length_drop]; omega) hj]
termination_by bs.length
decreasing_by simp [List.length_drop]; omega

/-- **C2**: recovery scans exactly the `seqnum-*` files, reads whole 24-byte
records (a torn tail is ignored), and maps every key with at least one
record to the maximum over its records of `value + 1`; keys without a
record stay absent. -/
theorem c2_load_recovery :
    (∀ (files : List SeqFile) (k : List Nat),
        load files k =
          match recordValuesFor files k with
          | [] => none
          | v :: vs => some (((v :: vs).map (· + 1)).foldl Nat.max 0)) ∧
    (∀ bs junk : List Nat, bs.length % 24 = 0 → junk.length < 24 →
        parseRecords (bs ++ junk) = parseRecords bs) := by
  constructor
  · intro files k
    have h1 : load files k = (seqnumRecords files).foldl applyRecord (fun _ => none) k := by
      rw [load, load_eq_foldl_records]
    rw [h1, foldl_applyRecord_filter]
    rcases hvs : ((seqnumRecords files).filter (fun r => decide (r.1 = k))).map Prod.snd
      with _ | ⟨v, vs⟩
    · simp [recordValuesFor, hvs]
    · simp only [recordValuesFor, hvs, List.map_cons, List.foldl_cons]
      rw [show mergeVal none v = some (v + 1) from rfl, foldl_mergeVal_some]
      simp [List.foldl_map, Nat.zero_max]
  · exact parseRecords_append_torn

/-- Concrete witness for C2's torn-record conjunct: two stray bytes after a
whole record do not change the parse. -/
theorem c2_load_recovery_witness :
    ((List.replicate 24 3).length % 24 = 0 ∧ ([1, 2] : List Nat).length < 24) ∧
    parseRecords (List.replicate 24 3 ++ [1, 2]) = parseRecords (List.replicate 24 3) :=
  ⟨⟨by decide, by decide⟩,
    c2_load_recovery.2 (List.replicate 24 3) [1, 2] (by decide) (by decide)⟩

/-! ## Message envelopes and handlers

`Msg` embeds the fields of the `lib::entity::Msg` head that the handlers
under `server/message/src` read or set.  Handler side effects (sends into
channels, log lines) are reified as an `Effect` list so the routing of
`pure_text.rs` and `business.rs` can be stated as data. -/

/-- A message envelope: the head fields used by the handlers.  The ACK's
client-timestamp slot is the `clientTimestamp` field; 0 encodes "not
carried". -/
structure Msg where
  typ : Nat
  sender : Nat
  receiver : Nat
  timestamp : Nat
  seqnum : Nat
  nodeId : Nat
  clientTimestamp : Nat := 0
  payload : String := ""
deriving DecidableEq

/-- Modelled from the spec: the numeric values of the `Type` enum (lib
crate, not among the given sources) are fixed by §6: Auth=1, Ack=2,
Error=3, JoinGroup=64. -/
def typeAuth : Nat := 1

def typeAck : Nat := 2

def typeError : Nat := 3

def typeJoinGroup : Nat := 64

/-- Modelled from the spec: `Msg::generate_ack(node_id, client_timestamp)`
(lib crate, not among the given sources), the two-argument form called by
`pure_text.rs`.  Per §3 (I3) and the glossary, an ACK is a type-2 envelope
carrying the same `sender`/`receiver` (and seqnum/timestamp) as the
original, the emitting node's id, and the given client timestamp. -/
def generate_ack (m : Msg) (nodeId : Nat) (clientTimestamp : Nat) : Msg :=
  { typ := typeAck
    sender := m.sender
    receiver := m.receiver
    timestamp := m.timestamp
    seqnum := m.seqnum
    nodeId := nodeId
    clientTimestamp := clientTimestamp }

/-- Modelled from the spec: the one-argument `Msg::generate_ack(node_id)`
called by `business.rs` (an older generation of the lib crate, also not
among the given sources).  The call site passes no client timestamp and the
handler receives no `inner_states`, so the ack cannot carry one: the slot
keeps its default 0.  All other fields are as in the two-argument form. -/
def generate_ack_old (m : Msg) (nodeId : Nat) : Msg :=
  { typ := typeAck
    sender := m.sender
    receiver := m.receiver
    timestamp := m.timestamp
    seqnum := m.seqnum
    nodeId := nodeId
    clientTimestamp := 0 }

/-- Observable side effects of a handler run. -/
inductive Effect where
  | groupPush (m : Msg)
  | sendToClient (uid : Nat) (m : Msg)
  | logReceiverMiss (uid : Nat)
  | ioTaskDirect (m : Msg)
  | sendToCluster (nid : Nat) (m : Msg)
  | logClusterOffline (nid : Nat)
deriving DecidableEq

/-- Handler refusal: `HandlerError::NotMine` is the only variant the
embedded handlers produce. -/
inductive HandlerError where
  | notMine
deriving DecidableEq

/-- Ambient capabilities of the cluster `Text` handler: the local node id
(`util::my_id`), the group test (`is_group_msg`, service layer, membership
abstracted to a predicate), and the user → sender map (`ClientConnectionMap`,
membership abstracted to a predicate). -/
structure TextEnv where
  myId : Nat
  isGroupMsg : Nat → Bool
  clientMap : Nat → Bool

/-- Embedding of `Text::run` (cluster/handler/pure_text.rs lines 25–61):
reject types outside [32, 64) with NotMine; group receivers go to
`push_group_msg`; any other accepted message is offered to the local
session map (a miss is only logged) and then sent to the I/O task; the
returned value is `generate_ack(my_id(), client_timestamp)`. -/
def Text_run (env : TextEnv) (msg : Msg) (clientTimestamp : Nat) :
    Except HandlerError (List Effect × Msg) :=
  if msg.typ < 32 ∨ 64 ≤ msg.typ then .error .notMine
  else
    let receiver := msg.receiver
    let effects :=
      if env.isGroupMsg receiver then [Effect.groupPush msg]
      else
        (if env.clientMap receiver then [Effect.sendToClient receiver msg]
         else [Effect.logReceiverMiss receiver])
          ++ [Effect.ioTaskDirect msg]
    .ok (effects, generate_ack msg env.myId clientTimestamp)

/-- Ambient capabilities of the business handlers: local node id, user map
and cluster map (`ClusterConnectionMap`), memberships abstracted to
predicates. -/
structure BusinessEnv where
  myId : Nat
  clientMap : Nat → Bool
  clusterMap : Nat → Bool

/-- Embedding of `forward_only_user` (service/handler/business.rs lines
16–53): local node → offer to session map (miss logged) then I/O task;
other node → send via cluster map, or log `cluster[..] offline!` when the
entry is missing; in every case return `generate_ack(my_id())`. -/
def forward_only_user (env : BusinessEnv) (msg : Msg) : List Effect × Msg :=
  let receiver := msg.receiver
  let nodeId := msg.nodeId
  let effects :=
    if nodeId = env.myId then
      (if env.clientMap receiver then [Effect.sendToClient receiver msg]
       else [Effect.logReceiverMiss receiver])
        ++ [Effect.ioTaskDirect msg]
    else
      if env.clusterMap nodeId then [Effect.sendToCluster nodeId msg]
      else [Effect.logClusterOffline nodeId]
  (effects, generate_ack_old msg env.myId)

/-- Embedding of `JoinGroup::run` (business.rs lines 58–65): type gate then
`forward_only_user`.  The other business handlers (LeaveGroup, AddFriend,
RemoveFriend, SystemMessage, SetRelationship) differ only in the gated type
value. -/
def JoinGroup_run (env : BusinessEnv) (msg : Msg) :
    Except HandlerError (List Effect × Msg) :=
  if msg.typ ≠ typeJoinGroup then .error .notMine
  else .ok (forward_only_user env msg)

/-- The ack a handler result carries, if it succeeded. -/
def ackOf (r : Except HandlerError (List Effect × Msg)) : Option Msg :=
  match r with
  | .ok (_, a) => some a
  | .error _ => none

/-- The routing claim C3 states for the cluster `Text` handler, written from
the spec's words (§4.2), to be compared with the source embedding
`Text_run`: accept exactly types `[32, 64)`; group receiver → group-fanout;
`node_id = my_id` → local delivery (or logged miss) plus I/O task;
otherwise → send through the cluster map to the owning node; accepted runs
return an ACK carrying the inner-state client timestamp. -/
def TextRunClaim (env : TextEnv) (msg : Msg) (ts : Nat) : Prop :=
  (¬ (32 ≤ msg.typ ∧ msg.typ < 64) → Text_run env msg ts = .error .notMine) ∧
  ((32 ≤ msg.typ ∧ msg.typ < 64) →
    ∃ effects ack, Text_run env msg ts = .ok (effects, ack) ∧
      ack.typ = typeAck ∧ ack.clientTimestamp = ts ∧
      (if env.isGroupMsg msg.receiver then Effect.groupPush msg ∈ effects
       else if msg.nodeId = env.myId then
         Effect.ioTaskDirect msg ∈ effects ∧
         (if env.clientMap msg.receiver then Effect.sendToClient msg.receiver msg ∈ effects
          else Effect.logReceiverMiss msg.receiver ∈ effects)
       else Effect.sendToCluster msg.nodeId msg ∈ effects))

/-- Environment and message used to refute `TextRunClaim`: a non-group text
message whose `node_id` (2) differs from the local id (1). -/
def textCxEnv : TextEnv :=
  { myId := 1, isGroupMsg := fun _ => false, clientMap := fun _ => false }

def textCxMsg : Msg :=
  { typ := 32, sender := 10, receiver := 11, timestamp := 0, seqnum := 0, nodeId := 2 }

/-- Counterexample to C3 as stated: for a cross-node text message the
cluster `Text` handler performs no cluster-map send (pure_text.rs has no
`node_id` test at all); it delivers locally and emits to the I/O task. -/
theorem c3_text_handler_counterexample : ¬ TextRunClaim textCxEnv textCxMsg 7 := by
  intro h
  obtain ⟨effects, ack, heq, -, -, hroute⟩ := h.2 (by decide)
  have hval : Text_run textCxEnv textCxMsg 7
      = .ok ([Effect.logReceiverMiss 11, Effect.ioTaskDirect textCxMsg],
          generate_ack textCxMsg 1 7) := by rfl
  rw [hval] at heq
  obtain ⟨heff, -⟩ := Prod.mk.injEq .. ▸ (Except.ok.injEq .. ▸ heq)
  rw [show textCxEnv.isGroupMsg textCxMsg.receiver = false from rfl] at hroute
  simp only [Bool.false_eq_true, if_false] at hroute
  rw [if_neg (show ¬ textCxMsg.nodeId = textCxEnv.myId by decide)] at hroute
  rw [← heff] at hroute
  simp at hroute

/-- **C3 (amended)**: the cluster `Text` handler accepts exactly types
`[32, 64)` and declines the rest with NotMine; an accepted group message is
enqueued to the group-fanout task; every other accepted message is offered
to the local session map (a miss is only logged) and emitted to the I/O
task regardless of the message's `node_id`; no cluster-map send ever
happens; the ACK is `generate_ack(my_id(), client_timestamp)`. -/
theorem c3_text_handler_routing (env : TextEnv) (msg : Msg) (ts : Nat) :
    (¬ (32 ≤ msg.typ ∧ msg.typ < 64) → Text_run env msg ts = .error .notMine) ∧
    ((32 ≤ msg.typ ∧ msg.typ < 64) →
      ∃ effects ack, Text_run env msg ts = .ok (effects, ack) ∧
        ack = generate_ack msg env.myId ts ∧
        (if env.isGroupMsg msg.receiver then effects = [Effect.groupPush msg]
         else
           Effect.ioTaskDirect msg ∈ effects ∧
           (if env.clientMap msg.receiver then Effect.sendToClient msg.receiver msg ∈ effects
            else Effect.logReceiverMiss msg.receiver ∈ effects) ∧
           (∀ n m, Effect.sendToCluster n m ∉ effects))) := by
  constructor
  · intro h
    have hcond : msg.typ < 32 ∨ 64 ≤ msg.typ := by omega
    simp only [Text_run]
    rw [if_pos hcond]
  · intro h
    have hcond : ¬ (msg.typ < 32 ∨ 64 ≤ msg.typ) := by omega
    simp only [Text_run]
    rw [if_neg hcond]
    refine ⟨_, _, rfl, rfl, ?_⟩
    by_cases hg : env.isGroupMsg msg.receiver
    · simp [hg]
    · by_cases hc : env.clientMap msg.receiver
      · simp [hg, hc]
      · simp [hg, hc]

/-- Concrete witness for C3's amended theorem: an accepted local text
message with a missing receiver. -/
theorem c3_text_handler_routing_witness :
    (32 ≤ textCxMsg.typ ∧ textCxMsg.typ < 64) ∧
    (∃ effects ack, Text_run textCxEnv textCxMsg 7 = .ok (effects, ack) ∧
      ack = generate_ack textCxMsg textCxEnv.myId 7 ∧
      (if textCxEnv.isGroupMsg textCxMsg.receiver then effects = [Effect.groupPush textCxMsg]
       else
         Effect.ioTaskDirect textCxMsg ∈ effects ∧
         (if textCxEnv.clientMap textCxMsg.receiver then
            Effect.sendToClient textCxMsg.receiver textCxMsg ∈ effects
          else Effect.logReceiverMiss textCxMsg.receiver ∈ effects) ∧
         (∀ n m, Effect.sendToCluster n m ∉ effects))) :=
  ⟨by decide, (c3_text_handler_routing textCxEnv textCxMsg 7).2 (by decide)⟩

/-- **C4**: a cross-node business message whose target node is missing from
the cluster map produces exactly one effect — the logged offline error —
and still returns `generate_ack(my_id())`, the same ack every other routing
outcome of `forward_only_user` returns (no originator-visible error, no
other state touched). -/
theorem c4_peer_offline_swallowed (env : BusinessEnv) (msg : Msg)
    (hnode : msg.nodeId ≠ env.myId) (habs : env.clusterMap msg.nodeId = false) :
    (forward_only_user env msg).1 = [Effect.logClusterOffline msg.nodeId] ∧
    (forward_only_user env msg).2 = generate_ack_old msg env.myId ∧
    (∀ env' : BusinessEnv, env'.myId = env.myId →
        (forward_only_user env' msg).2 = (forward_only_user env msg).2) := by
  refine ⟨?_, rfl, ?_⟩
  · simp [forward_only_user, hnode, habs]
  · intro env' h
    simp [forward_only_user, h]

/-- Environment and message for C4's witness: user 30 on node 1 sends to a
user whose node 3 is absent from the cluster map. -/
def bizOffEnv : BusinessEnv :=
  { myId := 1, clientMap := fun _ => false, clusterMap := fun _ => false }

def bizOffMsg : Msg :=
  { typ := 64, sender := 30, receiver := 31, timestamp := 0, seqnum := 0, nodeId := 3 }

/-- Concrete witness for C4. -/
theorem c4_peer_offline_swallowed_witness :
    (bizOffMsg.nodeId ≠ bizOffEnv.myId ∧ bizOffEnv.clusterMap bizOffMsg.nodeId = false) ∧
    ((forward_only_user bizOffEnv bizOffMsg).1
        = [Effect.logClusterOffline bizOffMsg.nodeId] ∧
      (forward_only_user bizOffEnv bizOffMsg).2 = generate_ack_old bizOffMsg bizOffEnv.myId ∧
      (∀ env' : BusinessEnv, env'.myId = bizOffEnv.myId →
          (forward_only_user env' bizOffMsg).2 = (forward_only_user bizOffEnv bizOffMsg).2)) :=
  ⟨⟨by decide, by rfl⟩,
    c4_peer_offline_swallowed bizOffEnv bizOffMsg (by decide) (by rfl)⟩

/-- The instance of claim C5 for the business handlers, written from the
spec's words (I3/P8), to be compared with the source embedding: a message
handled successfully while the inner-state client timestamp is `t` gets an
ACK whose client-timestamp field equals `t`. -/
def BusinessAckClaim (env : BusinessEnv) (msg : Msg) (t : Nat) : Prop :=
  ∀ ack, ackOf (JoinGroup_run env msg) = some ack → ack.clientTimestamp = t

def c5Env : BusinessEnv :=
  { myId := 1, clientMap := fun _ => false, clusterMap := fun _ => false }

def c5Msg : Msg :=
  { typ := 64, sender := 8, receiver := 9, timestamp := 0, seqnum := 0, nodeId := 1 }

/-- Counterexample to C5 as stated: a JoinGroup message handled while the
inner-state client timestamp is 1 is acked by `generate_ack(my_id())`,
which receives no timestamp (the business `run` signature has no
`inner_states` parameter at all), so the ack's slot stays 0 ≠ 1. -/
theorem c5_ack_counterexample : ¬ BusinessAckClaim c5Env c5Msg 1 := by
  intro h
  have h0 := h (generate_ack_old c5Msg c5Env.myId) (by rfl)
  simp [generate_ack_old] at h0

/-- **C5 (amended)**: a successful cluster `Text` run acks with the same
sender/receiver and the inner-state client timestamp; a successful business
run (here JoinGroup, all business handlers share `forward_only_user`) acks
with the same sender/receiver but a client-timestamp slot fixed at 0 —
the one-argument `generate_ack` cannot see `inner_states`. -/
theorem c5_ack_client_timestamp :
    (∀ (env : TextEnv) (msg : Msg) (ts : Nat) (effects : List Effect) (ack : Msg),
        Text_run env msg ts = .ok (effects, ack) →
        ack.sender = msg.sender ∧ ack.receiver = msg.receiver ∧
          ack.clientTimestamp = ts) ∧
    (∀ (env : BusinessEnv) (msg : Msg) (effects : List Effect) (ack : Msg),
        JoinGroup_run env msg = .ok (effects, ack) →
        ack.sender = msg.sender ∧ ack.receiver = msg.receiver ∧
          ack.clientTimestamp = 0) := by
  constructor
  · intro env msg ts effects ack heq
    by_cases hc : msg.typ < 32 ∨ 64 ≤ msg.typ
    · rw [show Text_run env msg ts = .error .notMine from by
        simp only [Text_run]; rw [if_pos hc]] at heq
      exact absurd heq (by simp)
    · rw [show Text_run env msg ts
          = .ok ((if env.isGroupMsg msg.receiver then [Effect.groupPush msg]
              else
                (if env.clientMap msg.receiver then [Effect.sendToClient msg.receiver msg]
                 else [Effect.logReceiverMiss msg.receiver])
                  ++ [Effect.ioTaskDirect msg]),
              generate_ack msg env.myId ts) from by
        simp only [Text_run]; rw [if_neg hc]] at heq
      obtain ⟨-, hack⟩ := Prod.mk.injEq .. ▸ (Except.ok.injEq .. ▸ heq)
      rw [← hack]
      exact ⟨rfl, rfl, rfl⟩
  · intro env msg effects ack heq
    by_cases ht : msg.typ ≠ typeJoinGroup
    · rw [show JoinGroup_run env msg = .error .notMine from by
        simp only [JoinGroup_run]; rw [if_pos ht]] at heq
      exact absurd heq (by simp)
    · rw [show JoinGroup_run env msg = .ok (forward_only_user env msg) from by
        simp only [JoinGroup_run]; rw [if_neg ht]] at heq
      have hpair : forward_only_user env msg = (effects, ack) :=
        Except.ok.injEq .. ▸ heq
      have hack : ack = (forward_only_user env msg).2 := by
        rw [hpair]
      rw [hack]
      exact ⟨rfl, rfl, rfl⟩

def c5TextEnv : TextEnv :=
  { myId := 1, isGroupMsg := fun _ => false, clientMap := fun _ => false }

def c5TextMsg : Msg :=
  { typ := 33, sender := 5, receiver := 6, timestamp := 0, seqnum := 0, nodeId := 1 }

/-- Concrete witness for C5's amended theorem, on both handler families. -/
theorem c5_ack_client_timestamp_witness :
    ((generate_ack c5TextMsg 1 9).sender = c5TextMsg.sender ∧
      (generate_ack c5TextMsg 1 9).receiver = c5TextMsg.receiver ∧
      (generate_ack c5TextMsg 1 9).clientTimestamp = 9) ∧
    ((generate_ack_old c5Msg 1).sender = c5Msg.sender ∧
      (generate_ack_old c5Msg 1).receiver = c5Msg.receiver ∧
      (generate_ack_old c5Msg 1).clientTimestamp = 0) :=
  ⟨c5_ack_client_timestamp.1 c5TextEnv c5TextMsg 9
      [Effect.logReceiverMiss 6, Effect.ioTaskDirect c5TextMsg]
      (generate_ack c5TextMsg 1 9) (by rfl),
    c5_ack_client_timestamp.2 c5Env c5Msg
      [Effect.logReceiverMiss 9, Effect.ioTaskDirect c5Msg]
      (generate_ack_old c5Msg 1) (by rfl)⟩

/-! ## Transport client configuration (`server/common/src/net/client.rs`)

`ClientConfigBuilder::build` (lines 105–137) unwraps the eight optional
fields in declaration order with `ok_or_else`, each failure carrying a
fixed message string. -/

/-- Prefix test on character lists (no library dependence, used for the
"error names the field" reading of the claim). -/
def isPrefixList : List Char → List Char → Bool
  | [], _ => true
  | _ :: _, [] => false
  | a :: as, b :: bs => a == b && isPrefixList as bs

/-- Contiguous-occurrence test on character lists. -/
def containsSeq : List Char → List Char → Bool
  | needle, [] => needle.isEmpty
  | needle, c :: rest => isPrefixList needle (c :: rest) || containsSeq needle rest

/-- An error message names a field when the field's identifier occurs
verbatim in the message. -/
def namesField (field err : String) : Bool :=
  containsSeq field.toList err.toList

/-- The validated configuration produced by a successful `build`.
Addresses, certificates, durations and stream counts are abstracted to
`Nat`; the field set and order are those of the source. -/
structure ClientConfig where
  remote_address : Nat
  domain : String
  cert : Nat
  keep_alive_interval : Nat
  max_bi_streams : Nat
  max_uni_streams : Nat
  max_sender_side_channel_size : Nat
  max_receiver_side_channel_size : Nat
deriving DecidableEq

/-- The builder: every field optional, `None` by default
(`ClientConfigBuilder::default`). -/
structure ClientConfigBuilder where
  remote_address : Option Nat := none
  domain : Option String := none
  cert : Option Nat := none
  keep_alive_interval : Option Nat := none
  max_bi_streams : Option Nat := none
  max_uni_streams : Option Nat := none
  max_sender_side_channel_size : Option Nat := none
  max_receiver_side_channel_size : Option Nat := none
deriving DecidableEq

/-- `Option::ok_or_else` with an error string. -/
def okOrElse {α : Type} (o : Option α) (e : String) : Except String α :=
  match o with
  | some v => .ok v
  | none => .error e

/-- Embedding of `ClientConfigBuilder::build`: unwrap each field in source
order; the message strings are the source's literals (note the stale names
in the last two). -/
def ClientConfigBuilder.build (b : ClientConfigBuilder) : Except String ClientConfig := do
  let remote_address ← okOrElse b.remote_address "address is required"
  let domain ← okOrElse b.domain "domain is required"
  let cert ← okOrElse b.cert "cert is required"
  let keep_alive_interval ← okOrElse b.keep_alive_interval "keep_alive_interval is required"
  let max_bi_streams ← okOrElse b.max_bi_streams "max_bi_streams is required"
  let max_uni_streams ← okOrElse b.max_uni_streams "max_uni_streams is required"
  let max_sender_side_channel_size ←
    okOrElse b.max_sender_side_channel_size "max_io_channel_size is required"
  let max_receiver_side_channel_size ←
    okOrElse b.max_receiver_side_channel_size "max_task_channel_size is required"
  return { remote_address, domain, cert, keep_alive_interval, max_bi_streams,
           max_uni_streams, max_sender_side_channel_size, max_receiver_side_channel_size }

/-- What C6 claims about a failed `build`, written from the spec's words:
some error is returned and it names the missing field. -/
def BuildErrorNamesField (b : ClientConfigBuilder) (field : String) : Prop :=
  ∃ e, b.build = Except.error e ∧ namesField field e = true

/-- A builder with everything set except `max_sender_side_channel_size`. -/
def c6Builder : ClientConfigBuilder :=
  { remote_address := some 1, domain := some "d", cert := some 2,
    keep_alive_interval := some 3, max_bi_streams := some 4, max_uni_streams := some 5,
    max_sender_side_channel_size := none, max_receiver_side_channel_size := some 6 }

/-- Counterexample to C6 as stated: with only `max_sender_side_channel_size`
unset, `build` fails with "max_io_channel_size is required", which does not
name the missing field (the string names a different, legacy field). -/
theorem c6_build_counterexample :
    c6Builder.max_sender_side_channel_size = none ∧
    ¬ BuildErrorNamesField c6Builder "max_sender_side_channel_size" := by
  refine ⟨rfl, ?_⟩
  rintro ⟨e, he, hn⟩
  have hb : c6Builder.build = Except.error "max_io_channel_size is required" := by rfl
  rw [hb] at he
  have he' : "max_io_channel_size is required" = e := Except.error.injEq .. ▸ he
  rw [← he'] at hn
  exact absurd hn (by decide)

/-- **C6 (amended)**: `build` succeeds precisely when all eight fields are
set, and then returns exactly the set values; a failed `build` reports the
first missing field in declaration order with a fixed message — the message
names the field for domain, cert, keep_alive_interval, max_bi_streams and
max_uni_streams, but `remote_address` is reported as "address", and the two
channel-size fields are reported under the legacy names
`max_io_channel_size` and `max_task_channel_size`. -/
theorem c6_build_requires_all_fields (b : ClientConfigBuilder) :
    (∀ c : ClientConfig,
      b.build = .ok c ↔
        (b.remote_address = some c.remote_address ∧
         b.domain = some c.domain ∧
         b.cert = some c.cert ∧
         b.keep_alive_interval = some c.keep_alive_interval ∧
         b.max_bi_streams = some c.max_bi_streams ∧
         b.max_uni_streams = some c.max_uni_streams ∧
         b.max_sender_side_channel_size = some c.max_sender_side_channel_size ∧
         b.max_receiver_side_channel_size = some c.max_receiver_side_channel_size)) ∧
    (b.remote_address = none → b.build = .error "address is required") ∧
    (b.remote_address.isSome = true → b.domain = none →
        b.build = .error "domain is required") ∧
    (b.remote_address.isSome = true → b.domain.isSome = true → b.cert = none →
        b.build = .error "cert is required") ∧
    (b.remote_address.isSome = true → b.domain.isSome = true → b.cert.isSome = true →
        b.keep_alive_interval = none →
        b.build = .error "keep_alive_interval is required") ∧
    (b.remote_address.isSome = true → b.domain.isSome = true → b.cert.isSome = true →
        b.keep_alive_interval.isSome = true → b.max_bi_streams = none →
        b.build = .error "max_bi_streams is required") ∧
    (b.remote_address.isSome = true → b.domain.isSome = true → b.cert.isSome = true →
        b.keep_alive_interval.isSome = true → b.max_bi_streams.isSome = true →
        b.max_uni_streams = none →
        b.build = .error "max_uni_streams is required") ∧
    (b.remote_address.isSome = true → b.domain.isSome = true → b.cert.isSome = true →
        b.keep_alive_interval.isSome = true → b.max_bi_streams.isSome = true →
        b.max_uni_streams.isSome = true → b.max_sender_side_channel_size = none →
        b.build = .error "max_io_channel_size is required") ∧
    (b.remote_address.isSome = true → b.domain.isSome = true → b.cert.isSome = true →
        b.keep_alive_interval.isSome = true → b.max_bi_streams.isSome = true →
        b.max_uni_streams.isSome = true → b.max_sender_side_channel_size.isSome = true →
        b.max_receiver_side_channel_size = none →
        b.build = .error "max_task_channel_size is required") := by
  refine ⟨?_, ?_, ?_, ?_, ?_, ?_, ?_, ?_, ?_⟩
  · intro c
    constructor
    · intro h
      rcases h1 : b.remote_address with _ | ra
      · simp [ClientConfigBuilder.build, okOrElse, h1, Bind.bind, Except.bind] at h
      rcases h2 : b.domain with _ | d
      · simp [ClientConfigBuilder.build, okOrElse, h1, h2, Bind.bind, Except.bind] at h
      rcases h3 : b.cert with _ | ce
      · simp [ClientConfigBuilder.build, okOrElse, h1, h2, h3, Bind.bind, Except.bind] at h
      rcases h4 : b.keep_alive_interval with _ | ka
      · simp [ClientConfigBuilder.build, okOrElse, h1, h2, h3, h4,
          Bind.bind, Except.bind] at h
      rcases h5 : b.max_bi_streams with _ | bi
      · simp [ClientConfigBuilder.build, okOrElse, h1, h2, h3, h4, h5,
          Bind.bind, Except.bind] at h
      rcases h6 : b.max_uni_streams with _ | uni
      · simp [ClientConfigBuilder.build, okOrElse, h1, h2, h3, h4, h5, h6,
          Bind.bind, Except.bind] at h
      rcases h7 : b.max_sender_side_channel_size with _ | ms
      · simp [ClientConfigBuilder.build, okOrElse, h1, h2, h3, h4, h5, h6, h7,
          Bind.bind, Except.bind] at h
      rcases h8 : b.max_receiver_side_channel_size with _ | mr
      · simp [ClientConfigBuilder.build, okOrElse, h1, h2, h3, h4, h5, h6, h7, h8,
          Bind.bind, Except.bind] at h
      simp only [ClientConfigBuilder.build, okOrElse, h1, h2, h3, h4, h5, h6, h7, h8,
        Bind.bind, Except.bind, Pure.pure, Except.pure, Except.ok.injEq] at h
      rw [← h]
      simp [h1, h2, h3, h4, h5, h6, h7, h8]
    · rintro ⟨h1, h2, h3, h4, h5, h6, h7, h8⟩
      simp only [ClientConfigBuilder.build, okOrElse, h1, h2, h3, h4, h5, h6, h7, h8,
        Bind.bind, Except.bind, Pure.pure, Except.pure]
  · intro h1
    simp [ClientConfigBuilder.build, okOrElse, h1, Bind.bind, Except.bind]
  · intro p1 h2
    rcases Option.isSome_iff_exists.mp p1 with ⟨ra, h1⟩
    simp [ClientConfigBuilder.build, okOrElse, h1, h2, Bind.bind, Except.bind]
  · intro p1 p2 h3
    rcases Option.isSome_iff_exists.mp p1 with ⟨ra, h1⟩
    rcases Option.isSome_iff_exists.mp p2 with ⟨d, h2⟩
    simp [ClientConfigBuilder.build, okOrElse, h1, h2, h3, Bind.bind, Except.bind]
  · intro p1 p2 p3 h4
    rcases Option.isSome_iff_exists.mp p1 with ⟨ra, h1⟩
    rcases Option.isSome_iff_exists.mp p2 with ⟨d, h2⟩
    rcases Option.isSome_iff_exists.mp p3 with ⟨ce, h3⟩
    simp [ClientConfigBuilder.build, okOrElse, h1, h2, h3, h4, Bind.bind, Except.bind]
  · intro p1 p2 p3 p4 h5
    rcases Option.isSome_iff_exists.mp p1 with ⟨ra, h1⟩
    rcases Option.isSome_iff_exists.mp p2 with ⟨d, h2⟩
    rcases Option.isSome_iff_exists.mp p3 with ⟨ce, h3⟩
    rcases Option.isSome_iff_exists.mp p4 with ⟨ka, h4⟩
    simp [ClientConfigBuilder.build, okOrElse, h1, h2, h3, h4, h5, Bind.bind, Except.bind]
  · intro p1 p2 p3 p4 p5 h6
    rcases Option.isSome_iff_exists.mp p1 with ⟨ra, h1⟩
    rcases Option.isSome_iff_exists.mp p2 with ⟨d, h2⟩
    rcases Option.isSome_iff_exists.mp p3 with ⟨ce, h3⟩
    rcases Option.isSome_iff_exists.mp p4 with ⟨ka, h4⟩
    rcases Option.isSome_iff_exists.mp p5 with ⟨bi, h5⟩
    simp [ClientConfigBuilder.build, okOrElse, h1, h2, h3, h4, h5, h6,
      Bind.bind, Except.bind]
  · intro p1 p2 p3 p4 p5 p6 h7
    rcases Option.isSome_iff_exists.mp p1 with ⟨ra, h1⟩
    rcases Option.isSome_iff_exists.mp p2 with ⟨d, h2⟩
    rcases Option.isSome_iff_exists.mp p3 with ⟨ce, h3⟩
    rcases Option.isSome_iff_exists.mp p4 with ⟨ka, h4⟩
    rcases Option.isSome_iff_exists.mp p5 with ⟨bi, h5⟩
    rcases Option.isSome_iff_exists.mp p6 with ⟨uni, h6⟩
    simp [ClientConfigBuilder.build, okOrElse, h1, h2, h3, h4, h5, h6, h7,
      Bind.bind, Except.bind]
  · intro p1 p2 p3 p4 p5 p6 p7 h8
    rcases Option.isSome_iff_exists.mp p1 with ⟨ra, h1⟩
    rcases Option.isSome_iff_exists.mp p2 with ⟨d, h2⟩
    rcases Option.isSome_iff_exists.mp p3 with ⟨ce, h3⟩
    rcases Option.isSome_iff_exists.mp p4 with ⟨ka, h4⟩
    rcases Option.isSome_iff_exists.mp p5 with ⟨bi, h5⟩
    rcases Option.isSome_iff_exists.mp p6 with ⟨uni, h6⟩
    rcases Option.isSome_iff_exists.mp p7 with ⟨ms, h7⟩
    simp [ClientConfigBuilder.build, okOrElse, h1, h2, h3, h4, h5, h6, h7, h8,
      Bind.bind, Except.bind]

def c6Full : ClientConfigBuilder :=
  { remote_address := some 1, domain := some "d", cert := some 2,
    keep_alive_interval := some 3, max_bi_streams := some 4, max_uni_streams := some 5,
    max_sender_side_channel_size := some 6, max_receiver_side_channel_size := some 7 }

def c6Cfg : ClientConfig :=
  { remote_address := 1, domain := "d", cert := 2, keep_alive_interval := 3,
    max_bi_streams := 4, max_uni_streams := 5,
    max_sender_side_channel_size := 6, max_receiver_side_channel_size := 7 }

/-- Concrete witness for C6's amended theorem: a fully-set builder builds
exactly its values; dropping `max_sender_side_channel_size` yields the
legacy-named error. -/
theorem c6_build_requires_all_fields_witness :
    c6Full.build = .ok c6Cfg ∧
    c6Builder.build = .error "max_io_channel_size is required" :=
  ⟨((c6_build_requires_all_fields c6Full).1 c6Cfg).mpr
      ⟨rfl, rfl, rfl, rfl, rfl, rfl, rfl, rfl⟩,
    (c6_build_requires_all_fields c6Builder).2.2.2.2.2.2.2.1
      rfl rfl rfl rfl rfl rfl rfl⟩

/-! ## Transport client connection lifecycle (`Client`, client.rs lines 141–279)

`Client::run` consumes `self.config` with `take().unwrap()`, opens one
connection, and stores it; `new_net_streams` opens further bidirectional
streams on that stored connection.  A `take` of an already-consumed config
panics, embedded as an error result; a successful run replaces the
connection slot with the freshly opened connection, identified by a fresh
id supplied by the caller. -/

structure NetClient where
  config : Option ClientConfig
  connectionId : Option Nat

/-- `Client::new(config)`: config stored, nothing connected. -/
def Client_new (cfg : ClientConfig) : NetClient :=
  { config := some cfg, connectionId := none }

/-- Embedding of `Client::run` (lines 163–202): take the config (panic when
already taken), connect once, store endpoint and connection. -/
def Client_run (c : NetClient) (freshId : Nat) : Except String NetClient :=
  match c.config with
  | none => .error "panicked: config already taken"
  | some _ => .ok { config := none, connectionId := some freshId }

/-- Embedding of `Client::new_net_streams` (lines 205–239): open a new
bidirectional stream on the stored connection (panic when absent) and
return the connection the stream lives on. -/
def new_net_streams (c : NetClient) : Except String Nat :=
  match c.connectionId with
  | none => .error "panicked: no connection"
  | some conn => .ok conn

/-- What C7 claims of two consecutive connects, written from the spec's
words (P3): the second call succeeds and reuses the first connection. -/
def SecondRunReuses : Prop :=
  ∀ (cfg : ClientConfig) (id₁ id₂ : Nat), ∃ c₁ c₂ : NetClient,
    Client_run (Client_new cfg) id₁ = .ok c₁ ∧
    Client_run c₁ id₂ = .ok c₂ ∧
    c₂.connectionId = c₁.connectionId

/-- Counterexample to C7 as stated: the second `run` on the same client
does not succeed by reusing the connection — `config.take().unwrap()`
panics, because the config was consumed by the first call. -/
theorem c7_second_run_counterexample : ¬ SecondRunReuses := by
  intro h
  obtain ⟨c₁, c₂, h₁, h₂, -⟩ := h c6Cfg 0 1
  have hc₁ : c₁ = { config := none, connectionId := some 0 } :=
    (Except.ok.injEq .. ▸ h₁).symm
  rw [hc₁] at h₂
  exact absurd h₂ (by simp [Client_run])

/-- **C7 (amended)**: a `Client` owns at most one live connection: the
first `run` opens it, a second `run` on the same client fails (its config
was consumed) and leaves the stored connection untouched, and every
`new_net_streams` call opens its stream on that single stored connection
rather than opening another connection. -/
theorem c7_single_connection (cfg : ClientConfig) (id₁ id₂ : Nat) :
    (∃ c₁ : NetClient,
      Client_run (Client_new cfg) id₁ = .ok c₁ ∧
      c₁.connectionId = some id₁ ∧
      Client_run c₁ id₂ = .error "panicked: config already taken" ∧
      new_net_streams c₁ = .ok id₁ ∧
      ∀ n, new_net_streams c₁ = .ok n → n = id₁) := by
  refine ⟨{ config := none, connectionId := some id₁ }, rfl, rfl, rfl, rfl, ?_⟩
  intro n hn
  exact (Except.ok.injEq .. ▸ hn).symm

/-- Concrete witness for C7's amended theorem. -/
theorem c7_single_connection_witness :
    ∃ c₁ : NetClient,
      Client_run (Client_new c6Cfg) 5 = .ok c₁ ∧
      c₁.connectionId = some 5 ∧
      Client_run c₁ 6 = .error "panicked: config already taken" ∧
      new_net_streams c₁ = .ok 5 ∧
      ∀ n, new_net_streams c₁ = .ok n → n = 5 :=
  c7_single_connection c6Cfg 5 6

/-- Modelled from the spec: `Msg::auth(user_id, receiver, node_id, token)`
(lib crate, not among the given sources) builds the first message of a new
stream, of type Auth = 1 (§4.2/§6), carrying the sender and node id and the
token as payload. -/
def Msg_auth (userId receiverId nodeId : Nat) (token : String) : Msg :=
  { typ := typeAuth, sender := userId, receiver := receiverId, timestamp := 0,
    seqnum := 0, nodeId := nodeId, payload := token }

/-- Embedding of `Client::rw_streams` (client.rs lines 247–263): open a
stream, send `Msg::auth(user_id, 0, node_id, token)`, then block on the
inbound channel.  `None` (channel closed) is the only failure, reported as
"auth failed"; any received message — its type is never inspected — is
success, returning the channel pair.  `reply` stands for the first value
the inbound channel yields; the result carries the sent auth message and
the stream handle. -/
def rw_streams (c : NetClient) (userId nodeId : Nat) (token : String)
    (reply : Option Msg) : Except String (Msg × Nat) :=
  match new_net_streams c with
  | .error e => .error e
  | .ok conn =>
    match reply with
    | none => .error "auth failed"
    | some _ => .ok (Msg_auth userId 0 nodeId token, conn)

/-- Embedding of `ClientTimeout::rw_streams` (client.rs lines 410–427):
identical authentication logic; the timeout receiver it additionally
returns carries no authentication information. -/
def ClientTimeout_rw_streams (c : NetClient) (userId nodeId : Nat) (token : String)
    (reply : Option Msg) : Except String (Msg × Nat) :=
  match new_net_streams c with
  | .error e => .error e
  | .ok conn =>
    match reply with
    | none => .error "auth failed"
    | some _ => .ok (Msg_auth userId 0 nodeId token, conn)

/-- **C10**: both `rw_streams` implementations report "auth failed" exactly
when the inbound channel yields nothing; every reply message whatsoever —
its type is never read, so an Error-typed reply included — is accepted as
successful authentication and the channels are handed back. -/
theorem c10_rw_streams_any_reply (c : NetClient) (conn userId nodeId : Nat)
    (token : String) (h : c.connectionId = some conn) :
    (rw_streams c userId nodeId token none = .error "auth failed") ∧
    (∀ m : Msg, rw_streams c userId nodeId token (some m)
        = .ok (Msg_auth userId 0 nodeId token, conn)) ∧
    (ClientTimeout_rw_streams c userId nodeId token none = .error "auth failed") ∧
    (∀ m : Msg, ClientTimeout_rw_streams c userId nodeId token (some m)
        = .ok (Msg_auth userId 0 nodeId token, conn)) := by
  have hs : new_net_streams c = .ok conn := by
    simp [new_net_streams, h]
  refine ⟨?_, ?_, ?_, ?_⟩ <;>
    simp [rw_streams, ClientTimeout_rw_streams, hs]

def c10Client : NetClient := { config := none, connectionId := some 3 }

/-- An Error-typed reply (type 3). -/
def c10ErrMsg : Msg :=
  { typ := typeError, sender := 1, receiver := 2, timestamp := 0, seqnum := 0, nodeId := 1 }

/-- Concrete witness for C10: a closed channel fails; an Error-typed reply
authenticates. -/
theorem c10_rw_streams_any_reply_witness :
    c10Client.connectionId = some 3 ∧
    rw_streams c10Client 1 1 "tok" none = .error "auth failed" ∧
    rw_streams c10Client 1 1 "tok" (some c10ErrMsg)
      = .ok (Msg_auth 1 0 1 "tok", 3) :=
  ⟨rfl, (c10_rw_streams_any_reply c10Client 3 1 1 "tok" rfl).1,
    (c10_rw_streams_any_reply c10Client 3 1 1 "tok" rfl).2.1 c10ErrMsg⟩

/-! ## Frame read (`server/message/src/core/net.rs`, lines 98–128)

`read_msg_from_stream` reads a fixed-size head, then reads the declared
body length into `body_buf[0..head.length]`, where `body_buf` holds
`BODY_BUF_LENGTH = 1 << 16` bytes.  The function performs no length-cap
check of its own; a Rust slice expression `&mut buf[0..len]` with
`len > buf.len()` panics, embedded as the `oob` outcome. -/

def BODY_BUF_LENGTH : Nat := 65536

/-- Modelled from the spec: `msg::Head::from` lives in the entity module,
which is not among the given sources.  Per the spec's wire head (§6) the
body is `extension` plus `payload`, each up to 65535 bytes, so a head can
declare up to 131070 body bytes. -/
def maxDeclaredBody : Nat := 65535 + 65535

/-- Outcome of one frame read: a well-formed message (its body), an error
return, or an out-of-bounds buffer access (Rust slice panic). -/
inductive ReadOutcome where
  | ok (length : Nat) (body : List Nat)
  | err (reason : String)
  | oob (index : Nat) (bufLen : Nat)
deriving DecidableEq

/-- Embedding of the body phase of `Server::read_msg_from_stream` after a
complete head was read: slice `body_buf[0..declaredLen]` (panic when it
exceeds the buffer), read into it — a short read is "read body error" —
and otherwise return the message.  `avail` is what the stream still
holds. -/
def read_msg_from_stream (declaredLen : Nat) (avail : List Nat) : ReadOutcome :=
  if BODY_BUF_LENGTH < declaredLen then .oob declaredLen BODY_BUF_LENGTH
  else
    let body := avail.take declaredLen
    if body.length ≠ declaredLen then .err "read body error"
    else .ok declaredLen body

/-- What C9 claims, written from the spec's words: every declared body
length over the 65535 cap is rejected with an error return, and no head
value can drive the read out of the body buffer's bounds. -/
def FrameReadClaim : Prop :=
  ∀ (declaredLen : Nat) (avail : List Nat), declaredLen ≤ maxDeclaredBody →
    ((65535 < declaredLen → ∃ r, read_msg_from_stream declaredLen avail = .err r) ∧
     (∀ i n, read_msg_from_stream declaredLen avail ≠ .oob i n))

/-- **C9**: the claim fails on the code.  A head declaring 65537 body bytes
(e.g. extension 65535 + payload 2, legal per the wire format) makes the
read slice `body_buf[0..65537]` on a 65536-byte buffer — an out-of-bounds
panic, not a frame error; and a declared length of 65536, over the 65535
cap, is accepted as a well-formed message, because the function checks no
cap at all. -/
theorem c9_frame_read_no_cap :
    read_msg_from_stream 65537 [] = .oob 65537 65536 ∧
    read_msg_from_stream 65536 (List.replicate 65536 0)
      = .ok 65536 (List.replicate 65536 0) ∧
    ¬ FrameReadClaim := by
  refine ⟨by rfl, ?_, ?_⟩
  · have hlen : (List.replicate 65536 (0 : Nat)).length = 65536 :=
      List.length_replicate ..
    have htake : (List.replicate 65536 (0 : Nat)).take 65536
        = List.replicate 65536 (0 : Nat) := by
      apply List.take_of_length_le
      omega
    simp only [read_msg_from_stream]
    rw [if_neg (by norm_num [BODY_BUF_LENGTH]), htake, if_neg (by omega)]
  · intro h
    obtain ⟨-, hnoob⟩ := h 65537 [] (by norm_num [maxDeclaredBody])
    exact hnoob 65537 65536 (by rfl)

/-! ## Scheduler cluster dialer (`server/scheduler/src/cluster/client.rs`)

`Client::run` (lines 18–87) clones the configured address list, sorts it,
computes `num = (len - 1) / 2`, advances `index` just past its own address,
and loops `num` times: pick `addr_vec[index % len]`, advance `index`, skip
the address when the cluster set already contains it, otherwise dial it and
(on successful handshake) insert it into the set.  Addresses are abstracted
to `Nat`; dials and handshakes are assumed to succeed (the claim is about
which addresses are dialed). -/

/-- Insertion step of a simple insertion sort (embeds `Vec::sort`'s effect:
a sorted permutation). -/
def insertSorted (a : Nat) : List Nat → List Nat
  | [] => [a]
  | b :: rest => if a ≤ b then a :: b :: rest else b :: insertSorted a rest

/-- The sorted address vector (`addr_vec.sort()`). -/
def sortAddrs (l : List Nat) : List Nat :=
  l.foldr insertSorted []

/-- The `index` value after the search loop: position just past the first
occurrence of `my`, or the list's length when `my` is absent. -/
def indexAfter : List Nat → Nat → Nat
  | [], _ => 0
  | a :: rest, my => if a = my then 1 else 1 + indexAfter rest my

/-- The dial loop: `n` iterations left, current cluster set, current
`index`.  Returns the addresses dialed, in order. -/
def dialLoop (vec : List Nat) : Nat → List Nat → Nat → List Nat
  | 0, _, _ => []
  | n + 1, cset, index =>
    let addr := vec.getD (index % vec.length) 0
    if cset.contains addr then dialLoop vec n cset (index + 1)
    else addr :: dialLoop vec n (addr :: cset) (index + 1)

/-- Embedding of the whole of `Client::run`: the addresses it dials given
the configured list, its own address, and the initial cluster set. -/
def Client_run_dials (addrs : List Nat) (my : Nat) (cset : List Nat) : List Nat :=
  let vec := sortAddrs addrs
  dialLoop vec ((vec.length - 1) / 2) cset (indexAfter vec my)

/-- The `n` consecutive ring positions of `vec` starting at `start`
(indices taken modulo the length): the successor window the spec talks
about. -/
def ringWindow (vec : List Nat) : Nat → Nat → List Nat
  | _, 0 => []
  | start, n + 1 =>
    vec.getD (start % vec.length) 0 :: ringWindow vec (start + 1) n

theorem ringWindow_mem (vec : List Nat) (n : Nat) (a : Nat) :
    ∀ start, a ∈ ringWindow vec start n ↔
      ∃ j, j < n ∧ a = vec.getD ((start + j) % vec.length) 0 := by
  induction n with
  | zero => intro start; simp [ringWindow]
  | succ n ih =>
    intro start
    simp only [ringWindow, List.mem_cons, ih (start + 1)]
    constructor
    · rintro (h | ⟨j, hj, ha⟩)
      · exact ⟨0, by omega, by simpa using h⟩
      · refine ⟨j + 1, by omega, ?_⟩
        rw [ha]
        have harith : start + 1 + j = start + (j + 1) := by omega
        rw [harith]
    · rintro ⟨j, hj, ha⟩
      cases j with
      | zero => left; simpa using ha
      | succ j =>
        right
        refine ⟨j, by omega, ?_⟩
        rw [ha]
        have harith : start + (j + 1) = start + 1 + j := by omega
        rw [harith]

/-- A window of at most the ring's size visits pairwise distinct positions,
so over a duplicate-free vector it is duplicate-free. -/
theorem ringWindow_nodup (vec : List Nat) (hnd : vec.Nodup) :
    ∀ (n : Nat), n ≤ vec.length → ∀ start, (ringWindow vec start n).Nodup := by
  intro n
  induction n with
  | zero => intro hn start; simp [ringWindow]
  | succ n ih =>
    intro hn start
    have hpos : 0 < vec.length := by omega
    simp only [ringWindow, List.nodup_cons]
    refine ⟨?_, ih (by omega) (start + 1)⟩
    rw [ringWindow_mem]
    rintro ⟨j, hj, ha⟩
    have h1 : start % vec.length < vec.length := Nat.mod_lt _ hpos
    have h2 : (start + 1 + j) % vec.length < vec.length := Nat.mod_lt _ hpos
    rw [List.getD_eq_get vec 0 h1, List.getD_eq_get vec 0 h2] at ha
    have hidx := (List.Nodup.get_inj_iff hnd).mp ha
    have hval : start % vec.length = (start + 1 + j) % vec.length :=
      congrArg Fin.val hidx
    have hmod : start % vec.length = (start + (1 + j)) % vec.length := by
      rw [show start + (1 + j) = start + 1 + j from by omega]
      exact hval
    have hm : Nat.ModEq vec.length start (start + (1 + j)) := hmod
    have hdvd : vec.length ∣ (start + (1 + j) - start) :=
      (Nat.modEq_iff_dvd' (by omega)).mp hm
    simp only [Nat.add_sub_cancel_left] at hdvd
    have := Nat.le_of_dvd (by omega) hdvd
    omega

/-- The dial loop over a duplicate-free window dials exactly the window
minus the addresses already in the cluster set: a skip consumes the
iteration without extending the window, and inserting a dialed address
never filters a later window entry (the window has no duplicates). -/
theorem dialLoop_eq_filter (vec : List Nat) :
    ∀ (n start : Nat) (cset : List Nat),
      (ringWindow vec start n).Nodup →
      dialLoop vec n cset start
        = (ringWindow vec start n).filter (fun a => ! cset.contains a) := by
  intro n
  induction n with
  | zero => intro start cset _; rfl
  | succ n ih =>
    intro start cset hnd
    simp only [ringWindow, List.nodup_cons] at hnd
    obtain ⟨hhead, htail⟩ := hnd
    simp only [dialLoop, ringWindow]
    by_cases hc : cset.contains (vec.getD (start % vec.length) 0)
    · rw [if_pos hc, ih (start + 1) cset htail,
        List.filter_cons_of_neg (by simpa using hc)]
    · rw [if_neg hc, ih (start + 1) (vec.getD (start % vec.length) 0 :: cset) htail,
        List.filter_cons_of_pos (by simpa using hc)]
      congr 1
      apply List.filter_congr
      intro a ha
      have hne : a ≠ vec.getD (start % vec.length) 0 := fun he => hhead (he ▸ ha)
      simp [List.contains_cons, hne]
      exact fun _ => by simpa using hne

theorem insertSorted_perm (a : Nat) (l : List Nat) :
    (insertSorted a l).Perm (a :: l) := by
  induction l with
  | nil => simp [insertSorted]
  | cons b rest ih =>
    by_cases h : a ≤ b
    · simp [insertSorted, h]
    · simp only [insertSorted, if_neg h]
      exact (ih.cons b).trans (List.Perm.swap a b rest)

theorem sortAddrs_perm (l : List Nat) : (sortAddrs l).Perm l := by
  induction l with
  | nil => simp [sortAddrs]
  | cons a rest ih =>
    exact (insertSorted_perm a (sortAddrs rest)).trans (ih.cons a)

theorem indexAfter_cons_pos (a my : Nat) (rest : List Nat) :
    1 ≤ indexAfter (a :: rest) my := by
  simp only [indexAfter]
  split <;> omega

/-- `index` after the search loop points just past `my`: the element right
before it is `my` itself. -/
theorem getD_indexAfter_pred (l : List Nat) (my : Nat) (h : my ∈ l) :
    l.getD (indexAfter l my - 1) 0 = my := by
  induction l with
  | nil => simp at h
  | cons a rest ih =>
    by_cases ha : a = my
    · simp [indexAfter, ha]
    · have h' : my ∈ rest := by
        rcases List.mem_cons.mp h with h | h
        · exact absurd h.symm ha
        · exact h
      simp only [indexAfter, if_neg ha]
      rcases rest with _ | ⟨b, rest'⟩
      · simp at h'
      · have hpos := indexAfter_cons_pos b my rest'
        have harith : 1 + indexAfter (b :: rest') my - 1
            = (indexAfter (b :: rest') my - 1) + 1 := by omega
        rw [harith, List.getD_cons_succ]
        exact ih h'

/-- **C8**: each scheduler replica dials exactly the `⌊(N−1)/2⌋`-element
ring-successor window of its own address in the sorted address list, minus
the addresses its cluster set already holds, and nothing else (given
distinct configured addresses and the replica's own address among them). -/
theorem c8_scheduler_ring_dialing (addrs : List Nat) (my : Nat) (cset : List Nat)
    (hnd : addrs.Nodup) (hmem : my ∈ addrs) :
    Client_run_dials addrs my cset
      = (ringWindow (sortAddrs addrs) (indexAfter (sortAddrs addrs) my)
          (((sortAddrs addrs).length - 1) / 2)).filter (fun a => ! cset.contains a) ∧
    (sortAddrs addrs).getD (indexAfter (sortAddrs addrs) my - 1) 0 = my ∧
    (sortAddrs addrs).length = addrs.length ∧
    (sortAddrs addrs).Perm addrs := by
  have hperm := sortAddrs_perm addrs
  have hnd' : (sortAddrs addrs).Nodup := hperm.nodup_iff.mpr hnd
  have hmem' : my ∈ sortAddrs addrs := hperm.mem_iff.mpr hmem
  refine ⟨?_, getD_indexAfter_pred _ _ hmem', hperm.length_eq, hperm⟩
  exact dialLoop_eq_filter (sortAddrs addrs) (((sortAddrs addrs).length - 1) / 2)
    (indexAfter (sortAddrs addrs) my) cset
    (ringWindow_nodup _ hnd' _ (by omega) _)

/-- Concrete witness for C8: three replicas, addresses 10 < 20 < 30, the
node at 20 dials only its single ring successor 30. -/
theorem c8_scheduler_ring_dialing_witness :
    (([10, 30, 20] : List Nat).Nodup ∧ (20 : Nat) ∈ ([10, 30, 20] : List Nat)) ∧
    (Client_run_dials [10, 30, 20] 20 []
        = (ringWindow (sortAddrs [10, 30, 20]) (indexAfter (sortAddrs [10, 30, 20]) 20)
            (((sortAddrs [10, 30, 20]).length - 1) / 2)).filter
              (fun a => ! ([] : List Nat).contains a) ∧
      (sortAddrs [10, 30, 20]).getD (indexAfter (sortAddrs [10, 30, 20]) 20 - 1) 0 = 20 ∧
      (sortAddrs [10, 30, 20]).length = ([10, 30, 20] : List Nat).length ∧
      (sortAddrs [10, 30, 20]).Perm [10, 30, 20]) :=
  ⟨⟨by decide, by decide⟩,
    c8_scheduler_ring_dialing [10, 30, 20] 20 [] (by decide) (by decide)⟩
